import Mathlib

/-!
Verification development for the worker core in `backend/src/worker.rs`.

The Rust source is shallowly embedded: pure computations become Lean
functions, stateful loops become explicit state-passing functions, and the
effects of external collaborators (database, variable/resource service,
child processes, filesystem) are passed in as explicit environment values.
Machine integers are modelled as `Nat`/`Int`; none of the embedded code
relies on overflow. String primitives from Rust are re-implemented on the
`List Char` view of Lean strings.
-/

namespace Windmill

/-! ## Rust string primitives -/

/-- Model of `str::starts_with` for a string pattern. -/
def rustStartsWith (s pre : String) : Bool :=
  pre.data.isPrefixOf s.data

/-- Model of `str::strip_prefix` after the prefix test already succeeded:
drop the first `n` characters (all prefixes used in the source are ASCII, so
character count equals byte count there). -/
def dropChars (s : String) (n : Nat) : String :=
  String.mk (s.data.drop n)

/-- UTF-8 encoded size of one character, as used by `String::len` in Rust. -/
def utf8SizeC (c : Char) : Nat :=
  if c.toNat < 0x80 then 1
  else if c.toNat < 0x800 then 2
  else if c.toNat < 0x10000 then 3
  else 4

/-- Model of Rust `String::len`: the UTF-8 byte length of the string. -/
def utf8Len (s : String) : Nat :=
  List.foldl (fun n c => n + utf8SizeC c) 0 s.data

/-- Split a character list on a separator character, keeping empty pieces,
as Rust `str::split` does with a one-character pattern. -/
def splitChar (sep : Char) : List Char → List (List Char)
  | [] => [[]]
  | c :: rest =>
    if c = sep then [] :: splitChar sep rest
    else
      match splitChar sep rest with
      | s :: ss => (c :: s) :: ss
      | [] => [[c]]

/-- Model of Rust `char::is_whitespace` (the Unicode White_Space property). -/
def rustIsWs (c : Char) : Bool :=
  c.toNat ∈ ([0x09, 0x0A, 0x0B, 0x0C, 0x0D, 0x20, 0x85, 0xA0, 0x1680,
    0x2000, 0x2001, 0x2002, 0x2003, 0x2004, 0x2005, 0x2006, 0x2007, 0x2008,
    0x2009, 0x200A, 0x2028, 0x2029, 0x202F, 0x205F, 0x3000] : List Nat)

/-- Model of Rust `str::trim_start`. -/
def rustTrimStart (s : String) : String :=
  String.mk (s.data.dropWhile rustIsWs)

/-- Model of Rust `str::lines`: split on a newline, drop a final empty piece
produced by a trailing newline, and strip one trailing carriage return from
each line. -/
def rustLines (s : String) : List String :=
  let parts := splitChar '\x0a' s.data
  let parts :=
    match parts.getLast? with
    | some [] => parts.dropLast
    | _ => parts
  parts.map (fun l => String.mk (if l.getLast? = some '\x0d' then l.dropLast else l))

/-! ## JSON values

`serde_json::Value` is embedded as `Value`.  Objects are association lists in
member order; numbers keep their literal text (no claim inspects numeric
values). -/

inductive Value where
  | null : Value
  | bool (b : Bool) : Value
  | num (lit : String) : Value
  | str (s : String) : Value
  | arr (xs : List Value) : Value
  | obj (ms : List (String × Value)) : Value
deriving Repr

/-! ## A JSON parser, modelling `serde_json::from_str` (external crate)

The source calls `serde_json::from_str` on `last_line`; the crate is not part
of this repository, so it is modelled by a standard JSON recursive-descent
parser: whitespace per RFC 8259, strings with the escape sequences that
`serde_json` reads and writes, `null`/`true`/`false`, arrays and objects.
Number literals are recognised as maximal runs of number characters and kept
as text.  Recursion is bounded by a fuel parameter; callers pass the input
length plus one, which every nesting level strictly consumes. -/

/-- Value of one hexadecimal digit character. -/
def hexVal (c : Char) : Option Nat :=
  if '0' ≤ c ∧ c ≤ '9' then some (c.toNat - '0'.toNat)
  else if 'a' ≤ c ∧ c ≤ 'f' then some (c.toNat - 'a'.toNat + 10)
  else if 'A' ≤ c ∧ c ≤ 'F' then some (c.toNat - 'A'.toNat + 10)
  else none

/-- Decode a single-character JSON escape (everything except `\\uXXXX`). -/
def decodeEsc (c : Char) : Option Char :=
  if c = '"' then some '"'
  else if c = '\\' then some '\\'
  else if c = '/' then some '/'
  else if c = 'n' then some '\x0a'
  else if c = 't' then some '\x09'
  else if c = 'r' then some '\x0d'
  else if c = 'b' then some '\x08'
  else if c = 'f' then some '\x0c'
  else none

/-- Parse the body of a JSON string after the opening quote.  Returns the
decoded characters and the input remaining after the closing quote. -/
def parseStrBody : List Char → Option (List Char × List Char)
  | [] => none
  | c :: rest =>
    if c = '"' then some ([], rest)
    else if c = '\\' then
      match rest with
      | [] => none
      | e :: rest2 =>
        if e = 'u' then
          match rest2 with
          | h1 :: h2 :: h3 :: h4 :: rest3 =>
            match hexVal h1, hexVal h2, hexVal h3, hexVal h4 with
            | some a, some b, some c3, some d =>
              match parseStrBody rest3 with
              | some (s, r) => some (Char.ofNat (((a * 16 + b) * 16 + c3) * 16 + d) :: s, r)
              | none => none
            | _, _, _, _ => none
          | _ => none
        else
          match decodeEsc e with
          | some ch =>
            match parseStrBody rest2 with
            | some (s, r) => some (ch :: s, r)
            | none => none
          | none => none
    else
      match parseStrBody rest with
      | some (s, r) => some (c :: s, r)
      | none => none

/-- JSON insignificant whitespace. -/
def isJsonWs (c : Char) : Bool :=
  c = ' ' || c = '\x09' || c = '\x0a' || c = '\x0d'

/-- Skip insignificant whitespace. -/
def skipWs : List Char → List Char
  | [] => []
  | c :: rest => if isJsonWs c then skipWs rest else c :: rest

/-- ASCII digit test. -/
def isDigitC (c : Char) : Bool :=
  '0' ≤ c && c ≤ '9'

/-- Characters that may occur in a JSON number literal. -/
def isNumC (c : Char) : Bool :=
  isDigitC c || c = '-' || c = '+' || c = '.' || c = 'e' || c = 'E'

/-- Take the maximal run of number characters. -/
def takeNumChars : List Char → List Char × List Char
  | [] => ([], [])
  | c :: rest =>
    if isNumC c then
      let (ds, r) := takeNumChars rest
      (c :: ds, r)
    else ([], c :: rest)

/-- Parse one JSON value.  After an element of an array (resp. a member of an
object) followed by a comma, the remainder of the composite is parsed by
re-entering the function on the remainder prefixed with `[` (resp. the
brace), which consumes one fuel level per element. -/
def parseValue : Nat → List Char → Except String (Value × List Char)
  | 0, _ => Except.error "recursion limit exceeded"
  | fuel + 1, l =>
    match skipWs l with
    | [] => Except.error "unexpected end of input"
    | c :: rest =>
      if c = 'n' then
        match rest with
        | 'u' :: 'l' :: 'l' :: r => Except.ok (Value.null, r)
        | _ => Except.error "expected null"
      else if c = 't' then
        match rest with
        | 'r' :: 'u' :: 'e' :: r => Except.ok (Value.bool true, r)
        | _ => Except.error "expected true"
      else if c = 'f' then
        match rest with
        | 'a' :: 'l' :: 's' :: 'e' :: r => Except.ok (Value.bool false, r)
        | _ => Except.error "expected false"
      else if c = '"' then
        match parseStrBody rest with
        | some (s, r) => Except.ok (Value.str (String.mk s), r)
        | none => Except.error "invalid string"
      else if c = '[' then
        match skipWs rest with
        | ']' :: r => Except.ok (Value.arr [], r)
        | _ =>
          match parseValue fuel rest with
          | Except.ok (v, r2) =>
            match skipWs r2 with
            | ']' :: r3 => Except.ok (Value.arr [v], r3)
            | ',' :: r3 =>
              match parseValue fuel ('[' :: r3) with
              | Except.ok (Value.arr vs, r4) => Except.ok (Value.arr (v :: vs), r4)
              | Except.ok _ => Except.error "unreachable"
              | Except.error e => Except.error e
            | _ => Except.error "expected comma or bracket"
          | Except.error e => Except.error e
      else if c = '\x7b' then
        match skipWs rest with
        | '\x7d' :: r => Except.ok (Value.obj [], r)
        | '"' :: r =>
          match parseStrBody r with
          | some (k, r2) =>
            match skipWs r2 with
            | ':' :: r3 =>
              match parseValue fuel r3 with
              | Except.ok (v, r4) =>
                match skipWs r4 with
                | '\x7d' :: r5 => Except.ok (Value.obj [(String.mk k, v)], r5)
                | ',' :: r5 =>
                  match parseValue fuel ('\x7b' :: r5) with
                  | Except.ok (Value.obj kvs, r6) =>
                    Except.ok (Value.obj ((String.mk k, v) :: kvs), r6)
                  | Except.ok _ => Except.error "unreachable"
                  | Except.error e => Except.error e
                | _ => Except.error "expected comma or brace"
              | Except.error e => Except.error e
            | _ => Except.error "expected colon"
          | none => Except.error "invalid string"
        | _ => Except.error "expected key"
      else if c = '-' || isDigitC c then
        match takeNumChars (c :: rest) with
        | (ds, r) => Except.ok (Value.num (String.mk ds), r)
      else Except.error "unexpected character"

/-- Model of `serde_json::from_str::<serde_json::Value>`: parse one value and
require only whitespace to remain. -/
def jsonParse (s : String) : Except String Value :=
  match parseValue (s.data.length + 1) s.data with
  | Except.ok (v, rest) =>
    if skipWs rest = [] then Except.ok v else Except.error "trailing characters"
  | Except.error e => Except.error e

/-! ## JSON string serialization, modelling `serde_json` output

`handle_dependency_job` interpolates `json!(content)` (a `Value::String`)
into a format string; its `Display` implementation writes the string quoted,
escaping `"`, `\\`, the named control escapes and other control characters
as `\\u00XX` with lowercase hexadecimal digits. -/

/-- Lowercase hexadecimal digit for `n < 16`. -/
def hexDigit (n : Nat) : Char :=
  if n < 10 then Char.ofNat ('0'.toNat + n) else Char.ofNat ('a'.toNat + n - 10)

/-- The characters `serde_json` emits for one character inside a string. -/
def escChar (c : Char) : List Char :=
  if c = '"' then ['\\', '"']
  else if c = '\\' then ['\\', '\\']
  else if c = '\x08' then ['\\', 'b']
  else if c = '\x09' then ['\\', 't']
  else if c = '\x0a' then ['\\', 'n']
  else if c = '\x0c' then ['\\', 'f']
  else if c = '\x0d' then ['\\', 'r']
  else if c.toNat < 0x20 then
    ['\\', 'u', '0', '0', hexDigit (c.toNat / 16), hexDigit (c.toNat % 16)]
  else [c]

/-- Escape every character of a string body. -/
def encodeChars : List Char → List Char
  | [] => []
  | c :: rest => escChar c ++ encodeChars rest

/-- A `Value::String` as `serde_json` prints it: quoted and escaped. -/
def jsonEncodeString (s : String) : String :=
  String.mk ('"' :: encodeChars s.data ++ ['"'])

/-! ## Argument resolver: `transform_json_value` (worker.rs lines 360-390)

The external variable/resource service (`crate::client`) is an explicit
parameter.  `get_variable` returns `Result<String>`; the code immediately
replaces `Err` with an error text, so the service is modelled as
`Option String`.  `get_resource` returns `Result<Option<Value>>` and the code
collapses it with `.ok().flatten()`, so it is modelled as `Option Value`.
The unbounded Rust recursion (`async_recursion`) is bounded by a fuel
parameter counting nesting depth; at fuel zero the value is returned as is. -/

structure Service where
  getVariable : String → Option String
  getResource : String → Option Value

/-- Embedding of `transform_json_value`.  Mirrors the Rust `match`: a string
starting with `$var:`, a string starting with `$res:`, an object walked
member by member, and a catch-all returning the value unchanged. -/
def transform_json_value (svc : Service) : Nat → Value → Value
  | 0, v => v
  | fuel + 1, v =>
    match v with
    | Value.str y =>
      if rustStartsWith y "$var:" then
        let path := dropChars y 5
        Value.str ((svc.getVariable path).getD ("error fetching variable " ++ path))
      else if rustStartsWith y "$res:" then
        let path := dropChars y 5
        if (splitChar '/' path.data).length < 2 then
          Value.str ("resource path: " ++ path ++ " is ill-defined")
        else
          let v2 := (svc.getResource path).getD
            (Value.str ("error fetching resource " ++ path))
          transform_json_value svc fuel v2
      else Value.str y
    | Value.obj m =>
      Value.obj (m.map (fun kv => (kv.1, transform_json_value svc fuel kv.2)))
    | w => w

/-! ## Child supervisor pieces: `handle_child` (worker.rs lines 942-1125) -/

/-- The constant `MAX_LOG_SIZE` from worker.rs line 58. -/
def MAX_LOG_SIZE : Nat := 50000

/-- State owned by the supervisor task: the `logs` string, the `last_line`
string and the shared atomic `done` flag. -/
structure RecvState where
  logs : String
  last_line : String
  done : Bool
deriving Repr, DecidableEq

/-- Embedding of the log-channel receive arm of the flush loop (worker.rs
lines 1099-1111), for a received line `nl`: when the character count of
`logs` exceeds `MAX_LOG_SIZE` a terminal message is appended and `done` is
stored; then, unconditionally, a newline and the line are appended and the
line is stored into `last_line`. -/
def handle_child_recv (s : RecvState) (nl : String) : RecvState :=
  let overflow := s.logs.length > MAX_LOG_SIZE
  let logs1 :=
    if overflow then s.logs ++ "Too many logs lines. Limit is 50000 chars. Killing job."
    else s.logs
  let done1 := if overflow then true else s.done
  { logs := logs1 ++ "\x0a" ++ nl, last_line := nl, done := done1 }

/-- The receive arm as claim C2 describes it: on overflow only the terminal
message is appended; the line append and the `last_line` copy happen
otherwise, and only otherwise.  Stated from the claim for comparison with
`handle_child_recv`. -/
def handle_child_recv_claimed (s : RecvState) (nl : String) : RecvState :=
  if s.logs.length > MAX_LOG_SIZE then
    { logs := s.logs ++ "Too many logs lines. Limit is 50000 chars. Killing job.",
      last_line := s.last_line, done := true }
  else
    { logs := s.logs ++ "\x0a" ++ nl, last_line := nl, done := s.done }

/-- Embedding of the per-line decision of the log-streamer task (worker.rs
lines 995-1003 and 1005-1013, identical for stdout and stderr): the line is
replaced by `"Line is too big"` and `done` is stored when `out.len()` — the
UTF-8 byte count — exceeds `MAX_LOG_SIZE`; otherwise the line itself is sent.
Returns the string pushed into the channel and whether `done` was set. -/
def streamLine (line : String) : String × Bool :=
  if utf8Len line > MAX_LOG_SIZE then ("Line is too big", true)
  else (line, false)

/-- The per-line decision as claim C3 describes it: the cap is compared
against the character count of the line.  Stated from the claim for
comparison with `streamLine`. -/
def streamLine_claimed (line : String) : String × Bool :=
  if line.length > MAX_LOG_SIZE then ("Line is too big", true)
  else (line, false)

/-- A queue update issued by the timeout check of the flush tick. -/
structure TimeoutUpdate where
  canceled : Bool
  canceled_by : String
  canceled_reason : String
deriving Repr, DecidableEq

/-- Embedding of the timeout check of the flush tick (worker.rs lines
1078-1096).  Instants are modelled in whole seconds, so the `num_seconds`
of the difference of two instants is their difference.  Returns the queue
update issued, if any. -/
def flushTimeoutCheck (started_at : Option Int) (now timeout : Int) : Option TimeoutUpdate :=
  let has_timeout := (started_at.map (fun sa => decide (now - sa > timeout))).getD false
  if has_timeout then
    some { canceled := true, canceled_by := "timeout",
           canceled_reason := "duration > " ++ toString timeout }
  else none

/-- Final value of `last_line` after a `handle_child` run that received the
given channel lines, starting from the value it had on entry: each received
line overwrites it (worker.rs line 1111). -/
def lastLineAfter (init : String) (received : List String) : String :=
  received.foldl (fun _ nl => nl) init

/-! ## Error kinds (`crate::error::Error`, declared outside worker.rs) -/

inductive Error where
  | InternalErr (msg : String) : Error
  | ExecutionErr (msg : String) : Error
  | IoErr (msg : String) : Error
deriving Repr, DecidableEq

/-! ## Dispatcher completion accounting: `run_worker` and `handle_queued_job`
(worker.rs lines 128-249 and 264-351)

For claim C1 only the control flow deciding which completion recorders run
matters, so the external calls are abstracted to their success flags and the
embedding counts, for the leased job itself, the calls to
`add_completed_job` and to `add_completed_job_error`.  The escalation call
`add_completed_job_error(db, &parent_job, ...)` in `run_worker` targets the
parent job, not the leased job, and is therefore not counted. -/

inductive JobKind where
  | Script | Preview | Script_Hub | Dependencies | Flow | FlowPreview
deriving Repr, DecidableEq

structure JobCtl where
  kind : JobKind
  is_flow_step : Bool
  has_parent : Bool
deriving Repr, DecidableEq

/-- Success flags of the external calls made while dispatching one job. -/
structure DispatchEnv where
  handleFlowOk : Bool
  updateInProgressOk : Bool
  handleJobOk : Bool
  addCompletedOk : Bool
  addCompletedErrorOk : Bool
  updateAfterOk : Bool
deriving Repr, DecidableEq

/-- Completion-recorder calls made for the leased job. -/
structure CallCounts where
  completed : Nat
  completedError : Nat
deriving Repr, DecidableEq

/-- Embedding of `handle_queued_job`: returns whether it returned `Ok` and
the completion-recorder calls it made for the job.  Mirrors the source:
Flow/FlowPreview delegate to `handle_flow`; otherwise a flow step first
requires a parent id and `update_flow_status_in_progress`; then, on
`handle_job` success, `add_completed_job` is called and, for a flow step,
`update_flow_status_after_job_completion`; on `handle_job` failure,
`add_completed_job_error` is called and, for a flow step, the same flow
status update.  Every failed external call propagates with the question-mark
operator. -/
def handle_queued_job_model (j : JobCtl) (env : DispatchEnv) : Bool × CallCounts :=
  match j.kind with
  | JobKind.Flow => (env.handleFlowOk, ⟨0, 0⟩)
  | JobKind.FlowPreview => (env.handleFlowOk, ⟨0, 0⟩)
  | _ =>
    if j.is_flow_step && !j.has_parent then (false, ⟨0, 0⟩)
    else if j.is_flow_step && !env.updateInProgressOk then (false, ⟨0, 0⟩)
    else if env.handleJobOk then
      if !env.addCompletedOk then (false, ⟨1, 0⟩)
      else if j.is_flow_step && !env.updateAfterOk then (false, ⟨1, 0⟩)
      else (true, ⟨1, 0⟩)
    else
      if !env.addCompletedErrorOk then (false, ⟨0, 1⟩)
      else if j.is_flow_step && !env.updateAfterOk then (false, ⟨0, 1⟩)
      else (true, ⟨0, 1⟩)

/-- Embedding of one `run_worker` loop iteration after `pull` returned
`Some(job)`: `handle_queued_job` runs; when it returns an error the
dispatcher calls `add_completed_job_error` for the job (worker.rs lines
175-184) unconditionally, whatever that call itself returns. -/
def run_worker_iter_model (j : JobCtl) (env : DispatchEnv) : CallCounts :=
  let (ok, c) := handle_queued_job_model j env
  if ok then c else ⟨c.completed, c.completedError + 1⟩

/-! ## `handle_job` tail (worker.rs lines 393-468)

The handler call (`handle_dependency_job` or `handle_nondep_job`), the
scratch-directory removal and the child status are abstracted to an
environment; the embedding returns the result of `handle_job` together with
whether `remove_dir_all` was reached.  `last_line` starts as the literal
`"\x7b\x7d"` set by `handle_queued_job` (worker.rs line 289) and is
overwritten by every line the supervisor received. -/

/-- Outcome of the child as `handle_job` observes it: the final value of the
`status` variable, `Except.ok b` meaning `Ok(exit)` with `exit.success() = b`
and `Except.error e` meaning the handler stored an error. -/
structure HandleJobEnv where
  handlerOk : Bool
  handlerErr : Error
  status : Except Error Bool
  childLines : List String
  removeOk : Bool
  removeErr : Error
  logs : String

/-- The failure message built from the last five log lines (worker.rs lines
455-460). -/
def last5Msg (logs : String) : String :=
  "Error during execution of the script\x0alast 5 logs lines:\x0a" ++
    String.intercalate "\x0a"
      ((rustLines logs).drop (max (rustLines logs).length 5 - 5))

/-- Display of an `Error` as interpolated into `format!` strings. -/
def errToString : Error → String
  | Error.InternalErr m => m
  | Error.ExecutionErr m => m
  | Error.IoErr m => m

/-- Embedding of `handle_job` after the handler was selected: a handler error
propagates before the directory removal; then `remove_dir_all(job_dir)` runs
and its failure propagates; then a successful status parses `last_line` as
JSON and a failure status builds an `ExecutionErr`.  The second component
records whether the removal was reached. -/
def handle_job_model (env : HandleJobEnv) : Except Error Value × Bool :=
  if !env.handlerOk then (Except.error env.handlerErr, false)
  else if !env.removeOk then (Except.error env.removeErr, true)
  else
    let ll := lastLineAfter "\x7b\x7d" env.childLines
    match env.status with
    | Except.ok true =>
      (match jsonParse ll with
       | Except.ok v => (Except.ok v, true)
       | Except.error e =>
         (Except.error (Error.ExecutionErr
           ("result " ++ ll ++ " is not parsable.\x0a err: " ++ e)), true))
    | Except.ok false =>
      (Except.error (Error.ExecutionErr (last5Msg env.logs)), true)
    | Except.error err =>
      (Except.error (Error.ExecutionErr ("error before termination: " ++ errToString err)), true)

/-! ## Dependency resolver: `handle_dependency_job` (worker.rs lines 850-908) -/

/-- Writes to the `script` row made by `handle_dependency_job`. -/
inductive ScriptUpdate where
  | setLock (lock : String) : ScriptUpdate
  | setLockErrorLogs (l : String) : ScriptUpdate
deriving Repr, DecidableEq

/-- The lock content kept from `requirements.txt`: every line whose first
non-whitespace character is `#` is removed and the remainder is joined with
a newline (worker.rs lines 879-884). -/
def stripComments (content : String) : String :=
  String.intercalate "\x0a"
    ((rustLines content).filter (fun x => !(rustStartsWith (rustTrimStart x) "#")))

/-- The `last_line` literal produced on success (worker.rs lines 885-888):
`format!` with the `json!(content)` string interpolated. -/
def depLastLine (content : String) : String :=
  "\x7b \"success\": \"Successful lock file generation\", \"lock\": " ++
    jsonEncodeString content ++ " \x7d"

/-- Environment of the post-child part of `handle_dependency_job`: the final
`status`, the content read from `requirements.txt` on success, the
accumulated logs, and the incoming `last_line`. -/
structure DepEnv where
  childOk : Bool
  exitSuccess : Bool
  fileContent : String
  logs : String
  lastLineIn : String

/-- Embedding of `handle_dependency_job` after the pinning child exited
(worker.rs lines 873-907): on `status.is_ok() && status.unwrap().success()`,
strip the comment lines of `requirements.txt`, set `last_line` to the JSON
literal and update the `lock` column; otherwise update `lock_error_logs`
with the logs.  Returns the new `last_line` and the script-row updates. -/
def handle_dependency_post (env : DepEnv) : String × List ScriptUpdate :=
  if env.childOk && env.exitSuccess then
    let content := stripComments env.fileContent
    (depLastLine content, [ScriptUpdate.setLock content])
  else
    (env.lastLineIn, [ScriptUpdate.setLockErrorLogs env.logs])

/-! ## Deno runner tail: `handle_nondep_job`, `ScriptLang::Deno` branch
(worker.rs lines 718-845)

For claim C10 only which files the runner writes and which command it spawns
matter.  Files are listed in write order; the child invocation is the
program and its arguments. -/

structure DenoExec where
  filesWritten : List String
  cmd : String
  cmdArgs : List String
deriving Repr, DecidableEq

/-- Embedding of the Deno branch: `inner.ts`, `args.json` and `main.ts` are
always written; `run.config.proto` is written only when `disable_nuser` is
false (worker.rs lines 784-794); the child is `nsjail` with
`--config run.config.proto` when `disable_nsjail` is false and a direct
`deno run` otherwise (worker.rs lines 802-836). -/
def deno_exec_model (disable_nuser disable_nsjail : Bool) : DenoExec :=
  let files := ["inner.ts", "args.json", "main.ts"] ++
    (if !disable_nuser then ["run.config.proto"] else [])
  if !disable_nsjail then
    { filesWritten := files, cmd := "nsjail",
      cmdArgs := ["--config", "run.config.proto", "--", "/usr/bin/deno", "run",
        "--unstable", "--v8-flags=--max-heap-size=2048", "-A", "/tmp/main.ts"] }
  else
    { filesWritten := files, cmd := "/usr/bin/deno",
      cmdArgs := ["run", "--unstable", "--v8-flags=--max-heap-size=2048", "-A", "main.ts"] }

/-! ## Concrete inputs used in counterexamples -/

/-- A `logs` string of 50001 identical characters, one past the cap. -/
def bigLogs : String := String.mk (List.replicate 50001 'a')

/-- A supervisor state whose `logs` already exceed `MAX_LOG_SIZE`. -/
def bigRecvState : RecvState := { logs := bigLogs, last_line := "prev", done := false }

/-- A line of 25001 two-byte characters: 25001 characters but 50002 UTF-8
bytes, between the two caps. -/
def bigLine : String := String.mk (List.replicate 25001 'é')

/-! ## Helper lemmas on the embedded string primitives -/

theorem data_append (s t : String) : (s ++ t).data = s.data ++ t.data := rfl

theorem mk_data (s : String) : String.mk s.data = s := rfl

theorem sw_append (pre p : String) : rustStartsWith (pre ++ p) pre = true := by
  simp [rustStartsWith, data_append, List.isPrefixOf_iff_prefix]

theorem sw_res_var (p : String) : rustStartsWith ("$res:" ++ p) "$var:" = false := by
  have h1 : ("$res:" ++ p).data = '$' :: 'r' :: 'e' :: 's' :: ':' :: p.data := rfl
  have h2 : ("$var:" : String).data = ['$', 'v', 'a', 'r', ':'] := rfl
  rw [rustStartsWith, h1, h2]
  simp [List.isPrefixOf]

theorem sw_err_var (p : String) :
    rustStartsWith ("error fetching resource " ++ p) "$var:" = false := by
  have h1 : ∃ l, ("error fetching resource " ++ p).data = 'e' :: l :=
    ⟨'r' :: ("ror fetching resource " ++ p).data, rfl⟩
  obtain ⟨l, hl⟩ := h1
  have h2 : ("$var:" : String).data = ['$', 'v', 'a', 'r', ':'] := rfl
  rw [rustStartsWith, hl, h2]
  simp [List.isPrefixOf]

theorem sw_err_res (p : String) :
    rustStartsWith ("error fetching resource " ++ p) "$res:" = false := by
  have h1 : ∃ l, ("error fetching resource " ++ p).data = 'e' :: l :=
    ⟨'r' :: ("ror fetching resource " ++ p).data, rfl⟩
  obtain ⟨l, hl⟩ := h1
  have h2 : ("$res:" : String).data = ['$', 'r', 'e', 's', ':'] := rfl
  rw [rustStartsWith, hl, h2]
  simp [List.isPrefixOf]

theorem drop5_append (pre p : String) (h : pre.data.length = 5) :
    dropChars (pre ++ p) 5 = p := by
  rw [dropChars, data_append, ← h, List.drop_left, mk_data]

/-- A string that matches neither placeholder tag is left unchanged by the
argument resolver, at every fuel. -/
theorem transform_str_id (svc : Service) (fuel : Nat) (s : String)
    (h1 : rustStartsWith s "$var:" = false) (h2 : rustStartsWith s "$res:" = false) :
    transform_json_value svc fuel (Value.str s) = Value.str s := by
  cases fuel with
  | zero => rfl
  | succ f => simp [transform_json_value, h1, h2]

/-! ## Claim theorems -/

/-- C4: in the flush tick of `handle_child`, when `started_at` is present and
the wall-clock elapsed since it exceeds the timeout, a queue update with
`canceled = true`, `canceled_by = "timeout"` and
`canceled_reason = "duration > <timeout>"` is issued; when `started_at` is
absent no timeout update is ever issued. -/
theorem flushTimeoutCheck_spec (started_at : Option Int) (now timeout : Int) :
    (∀ sa, started_at = some sa → now - sa > timeout →
      flushTimeoutCheck started_at now timeout =
        some { canceled := true, canceled_by := "timeout",
               canceled_reason := "duration > " ++ toString timeout }) ∧
    (started_at = none → flushTimeoutCheck started_at now timeout = none) := by
  constructor
  · intro sa hsa hgt
    subst hsa
    simp [flushTimeoutCheck, hgt]
  · intro hn
    subst hn
    simp [flushTimeoutCheck]

/-- Witness for C4 at a concrete input. -/
theorem flushTimeoutCheck_spec_witness :
    flushTimeoutCheck (some 0) 10 5 =
      some { canceled := true, canceled_by := "timeout",
             canceled_reason := "duration > " ++ toString (5 : Int) } :=
  (flushTimeoutCheck_spec (some 0) 10 5).1 0 rfl (by decide)

/-- C6: the argument resolver is the identity on null, booleans, numbers and
on strings that begin with neither `$var:` nor `$res:`; arrays are returned
entirely unchanged; objects are walked with every member value transformed,
whatever the variable/resource service answers. -/
theorem transform_json_value_identity_and_walk (svc : Service) (fuel : Nat) :
    transform_json_value svc fuel Value.null = Value.null ∧
    (∀ b, transform_json_value svc fuel (Value.bool b) = Value.bool b) ∧
    (∀ n, transform_json_value svc fuel (Value.num n) = Value.num n) ∧
    (∀ s, rustStartsWith s "$var:" = false → rustStartsWith s "$res:" = false →
      transform_json_value svc fuel (Value.str s) = Value.str s) ∧
    (∀ xs, transform_json_value svc fuel (Value.arr xs) = Value.arr xs) ∧
    (∀ m, transform_json_value svc (fuel + 1) (Value.obj m) =
      Value.obj (m.map (fun kv => (kv.1, transform_json_value svc fuel kv.2)))) := by
  refine ⟨?_, ?_, ?_, ?_, ?_, ?_⟩
  · cases fuel <;> rfl
  · intro b; cases fuel <;> rfl
  · intro n; cases fuel <;> rfl
  · intro s h1 h2; exact transform_str_id svc fuel s h1 h2
  · intro xs; cases fuel <;> rfl
  · intro m; rfl

/-- Witness for C6 at concrete inputs, with a no-op service. -/
theorem transform_json_value_identity_witness :
    transform_json_value ⟨fun _ => none, fun _ => none⟩ 7 (Value.str "hello") =
      Value.str "hello" ∧
    transform_json_value ⟨fun _ => none, fun _ => none⟩ 7
        (Value.arr [Value.str "$var:x"]) =
      Value.arr [Value.str "$var:x"] := by
  constructor
  · exact (transform_json_value_identity_and_walk ⟨fun _ => none, fun _ => none⟩ 7).2.2.2.1
      "hello" (by decide) (by decide)
  · exact (transform_json_value_identity_and_walk ⟨fun _ => none, fun _ => none⟩ 7).2.2.2.2.1
      [Value.str "$var:x"]

/-- C7: a `$res:` string whose path has fewer than two slash-separated
segments is replaced by the ill-defined literal without consulting the
service; a failed variable fetch yields the variable error string; a failed
or empty resource fetch on a well-formed path yields the resource error
string. -/
theorem transform_json_value_error_branches (svc : Service) (fuel : Nat) (p : String) :
    ((splitChar '/' p.data).length < 2 →
      transform_json_value svc (fuel + 1) (Value.str ("$res:" ++ p)) =
        Value.str ("resource path: " ++ p ++ " is ill-defined")) ∧
    (svc.getVariable p = none →
      transform_json_value svc (fuel + 1) (Value.str ("$var:" ++ p)) =
        Value.str ("error fetching variable " ++ p)) ∧
    (2 ≤ (splitChar '/' p.data).length → svc.getResource p = none →
      transform_json_value svc (fuel + 1) (Value.str ("$res:" ++ p)) =
        Value.str ("error fetching resource " ++ p)) := by
  refine ⟨?_, ?_, ?_⟩
  · intro hseg
    have hv := sw_res_var p
    have hr := sw_append "$res:" p
    have hd := drop5_append "$res:" p rfl
    simp [transform_json_value, hv, hr, hd, hseg]
  · intro hvar
    have hv := sw_append "$var:" p
    have hd := drop5_append "$var:" p rfl
    simp [transform_json_value, hv, hd, hvar]
  · intro hseg hres
    have hv := sw_res_var p
    have hr := sw_append "$res:" p
    have hd := drop5_append "$res:" p rfl
    have hid := transform_str_id svc fuel ("error fetching resource " ++ p)
      (sw_err_var p) (sw_err_res p)
    simp [transform_json_value, hv, hr, hd, Nat.not_lt.mpr hseg, hres, hid]

/-- Witness for C7 at concrete inputs, with a no-op service. -/
theorem transform_json_value_error_witness :
    transform_json_value ⟨fun _ => none, fun _ => none⟩ 3 (Value.str "$res:oneseg") =
      Value.str "resource path: oneseg is ill-defined" ∧
    transform_json_value ⟨fun _ => none, fun _ => none⟩ 3 (Value.str "$var:a/b") =
      Value.str "error fetching variable a/b" ∧
    transform_json_value ⟨fun _ => none, fun _ => none⟩ 3 (Value.str "$res:a/b") =
      Value.str "error fetching resource a/b" := by
  refine ⟨?_, ?_, ?_⟩
  · exact (transform_json_value_error_branches ⟨fun _ => none, fun _ => none⟩ 2 "oneseg").1
      (by decide)
  · exact (transform_json_value_error_branches ⟨fun _ => none, fun _ => none⟩ 2 "a/b").2.1 rfl
  · exact (transform_json_value_error_branches ⟨fun _ => none, fun _ => none⟩ 2 "a/b").2.2
      (by decide) rfl

/-- C10: in the Deno runner, `run.config.proto` is written iff `disable_nuser`
is false, the sandbox is used iff `disable_nsjail` is false, and with
`disable_nuser = true` and `disable_nsjail = false` nsjail is invoked with a
`run.config.proto` that was never written. -/
theorem deno_exec_model_spec (disable_nuser disable_nsjail : Bool) :
    (("run.config.proto" ∈ (deno_exec_model disable_nuser disable_nsjail).filesWritten) ↔
      disable_nuser = false) ∧
    ((deno_exec_model disable_nuser disable_nsjail).cmd = "nsjail" ↔
      disable_nsjail = false) ∧
    (disable_nuser = true → disable_nsjail = false →
      (deno_exec_model disable_nuser disable_nsjail).cmd = "nsjail" ∧
      "run.config.proto" ∈ (deno_exec_model disable_nuser disable_nsjail).cmdArgs ∧
      "run.config.proto" ∉ (deno_exec_model disable_nuser disable_nsjail).filesWritten) := by
  cases disable_nuser <;> cases disable_nsjail <;> refine ⟨?_, ?_, ?_⟩ <;> decide

/-- Witness for C10 at the flag pair the claim singles out. -/
theorem deno_exec_model_spec_witness :
    (deno_exec_model true false).cmd = "nsjail" ∧
    "run.config.proto" ∈ (deno_exec_model true false).cmdArgs ∧
    "run.config.proto" ∉ (deno_exec_model true false).filesWritten :=
  (deno_exec_model_spec true false).2.2 rfl rfl

/-- C1 fails as stated: for a flow-step Script job whose
`update_flow_status_after_job_completion` call errors after
`add_completed_job` already succeeded, the dispatcher error path also calls
`add_completed_job_error`, so both recorders are called for the same leased
job. -/
theorem run_worker_iter_not_exactly_one :
    (run_worker_iter_model ⟨JobKind.Script, true, true⟩
        ⟨true, true, true, true, true, false⟩).completed = 1 ∧
    (run_worker_iter_model ⟨JobKind.Script, true, true⟩
        ⟨true, true, true, true, true, false⟩).completedError = 1 ∧
    ¬ ((run_worker_iter_model ⟨JobKind.Script, true, true⟩
          ⟨true, true, true, true, true, false⟩).completed +
       (run_worker_iter_model ⟨JobKind.Script, true, true⟩
          ⟨true, true, true, true, true, false⟩).completedError = 1) := by
  decide

/-- C1 (amended): for every leased job of kind other than Flow/FlowPreview,
at least one of `add_completed_job` / `add_completed_job_error` is called for
the job before the dispatcher loops, and exactly one whenever the completion
recorders and the flow-status update all succeed.  (Flow/FlowPreview jobs
trigger no completion call when `handle_flow` succeeds, and a failing
recorder or flow-status update leads to a second call.) -/
theorem run_worker_iter_completion_calls (j : JobCtl) (env : DispatchEnv)
    (hk1 : j.kind ≠ JobKind.Flow) (hk2 : j.kind ≠ JobKind.FlowPreview) :
    1 ≤ (run_worker_iter_model j env).completed +
      (run_worker_iter_model j env).completedError ∧
    (env.addCompletedOk = true → env.addCompletedErrorOk = true →
      env.updateAfterOk = true →
      (run_worker_iter_model j env).completed +
        (run_worker_iter_model j env).completedError = 1) := by
  obtain ⟨k, fs, hp⟩ := j
  obtain ⟨a, b, c, d, e, f⟩ := env
  cases k <;> first
    | exact absurd rfl hk1
    | exact absurd rfl hk2
    | (revert fs hp a b c d e f; decide)

/-- Witness for the amended C1 at a concrete input. -/
theorem run_worker_iter_completion_calls_witness :
    (run_worker_iter_model ⟨JobKind.Script, false, false⟩
        ⟨true, true, true, true, true, true⟩).completed +
    (run_worker_iter_model ⟨JobKind.Script, false, false⟩
        ⟨true, true, true, true, true, true⟩).completedError = 1 :=
  (run_worker_iter_completion_calls ⟨JobKind.Script, false, false⟩
    ⟨true, true, true, true, true, true⟩ (by decide) (by decide)).2 rfl rfl rfl

/-- C2 fails as stated: in the overflow case the receive arm still appends
the newline and the line and still overwrites `last_line`, so the code
disagrees with the claimed behaviour on a state whose logs exceed the cap. -/
theorem handle_child_recv_ne_claimed :
    handle_child_recv bigRecvState "x" ≠ handle_child_recv_claimed bigRecvState "x" := by
  intro h
  have hlen : bigLogs.length = 50001 := by
    show (List.replicate 50001 'a').length = 50001
    rw [List.length_replicate]
  have h1 : (handle_child_recv bigRecvState "x").last_line = "x" := rfl
  have h2 : (handle_child_recv_claimed bigRecvState "x").last_line = "prev" := by
    simp [handle_child_recv_claimed, bigRecvState, hlen, MAX_LOG_SIZE]
  rw [h, h2] at h1
  exact absurd h1 (by decide)

/-- C2 (amended): on a received line, when the character count of `logs`
exceeds 50000 the terminal message is appended and `done` is set, and then —
in every case, overflow included — a newline plus the line is appended and
the line is copied into `last_line`. -/
theorem handle_child_recv_spec (s : RecvState) (nl : String) :
    (s.logs.length ≤ MAX_LOG_SIZE →
      handle_child_recv s nl =
        { logs := s.logs ++ "\x0a" ++ nl, last_line := nl, done := s.done }) ∧
    (s.logs.length > MAX_LOG_SIZE →
      handle_child_recv s nl =
        { logs := s.logs ++ "Too many logs lines. Limit is 50000 chars. Killing job." ++
            "\x0a" ++ nl,
          last_line := nl, done := true }) := by
  constructor
  · intro h
    simp [handle_child_recv, Nat.not_lt.mpr h]
  · intro h
    simp [handle_child_recv, h]

/-- Witness for the amended C2 at a concrete input. -/
theorem handle_child_recv_spec_witness :
    handle_child_recv ⟨"log", "prev", false⟩ "x" =
      { logs := "log" ++ "\x0a" ++ "x", last_line := "x", done := false } :=
  (handle_child_recv_spec ⟨"log", "prev", false⟩ "x").1 (by decide)

/-- Auxiliary: UTF-8 length of a replicated two-byte character. -/
theorem foldl_utf8_replicate (n a : Nat) :
    List.foldl (fun m c => m + utf8SizeC c) a (List.replicate n 'é') = a + 2 * n := by
  induction n generalizing a with
  | zero => simp
  | succ k ih =>
    rw [List.replicate_succ, List.foldl_cons, ih]
    have h2 : utf8SizeC 'é' = 2 := rfl
    rw [h2]
    omega

/-- C3 fails as stated: the streamer compares `out.len()`, the UTF-8 byte
count.  A line of 25001 two-byte characters has 50002 bytes but only 25001
characters, and the code replaces it with `"Line is too big"` while the
claimed character-count rule would forward it. -/
theorem streamLine_ne_claimed : streamLine bigLine ≠ streamLine_claimed bigLine := by
  have hb : utf8Len bigLine = 50002 := by
    show List.foldl (fun m c => m + utf8SizeC c) 0 (List.replicate 25001 'é') = 50002
    rw [foldl_utf8_replicate]
  have hc : bigLine.length = 25001 := by
    show (List.replicate 25001 'é').length = 25001
    rw [List.length_replicate]
  have e1 : streamLine bigLine = ("Line is too big", true) := by
    simp [streamLine, hb, MAX_LOG_SIZE]
  have e2 : streamLine_claimed bigLine = (bigLine, false) := by
    simp [streamLine_claimed, hc, MAX_LOG_SIZE]
  intro h
  rw [e1, e2] at h
  exact absurd (congrArg Prod.snd h) (by decide)

/-- C3 (amended): the streamer decides the per-line overflow by the byte
count of the line (Rust `String::len`, the UTF-8 encoded length): a line
whose byte count exceeds 50000 is replaced by `"Line is too big"` with
`done` set, and any line whose byte count is at most 50000 is forwarded
itself. -/
theorem streamLine_spec (line : String) :
    (utf8Len line > MAX_LOG_SIZE → streamLine line = ("Line is too big", true)) ∧
    (utf8Len line ≤ MAX_LOG_SIZE → streamLine line = (line, false)) := by
  constructor
  · intro h
    simp [streamLine, h]
  · intro h
    simp [streamLine, Nat.not_lt.mpr h]

/-- Witness for the amended C3 at a concrete input. -/
theorem streamLine_spec_witness : streamLine "hi" = ("hi", false) :=
  (streamLine_spec "hi").2 (by decide)

/-- C5 fails as stated: a child that exits successfully and prints no lines
leaves `last_line` at the `"\x7b\x7d"` it was initialised to by
`handle_queued_job`, which parses as the empty JSON object, so the job
succeeds with result `\x7b\x7d` instead of failing with `ExecutionErr`. -/
theorem handle_job_model_silent_child_ok :
    (handle_job_model
      { handlerOk := true, handlerErr := Error.InternalErr "",
        status := Except.ok true, childLines := [],
        removeOk := true, removeErr := Error.IoErr "", logs := "" }).1 =
      Except.ok (Value.obj []) := rfl

/-- C5 (amended): after a successful exit status (handler and directory
removal succeeding), `last_line` — the initial `"\x7b\x7d"` overwritten by
every received line — is parsed as JSON: a parsable value is returned as the
job result, an unparsable one fails with an `ExecutionErr` whose message
contains `result <last_line> is not parsable`, and a child that printed no
lines succeeds with the empty-object result. -/
theorem handle_job_model_success_parse (env : HandleJobEnv)
    (h1 : env.handlerOk = true) (h2 : env.status = Except.ok true)
    (h3 : env.removeOk = true) :
    (∀ v, jsonParse (lastLineAfter "\x7b\x7d" env.childLines) = Except.ok v →
      (handle_job_model env).1 = Except.ok v) ∧
    (∀ e, jsonParse (lastLineAfter "\x7b\x7d" env.childLines) = Except.error e →
      (handle_job_model env).1 = Except.error (Error.ExecutionErr
        ("result " ++ lastLineAfter "\x7b\x7d" env.childLines ++
          " is not parsable.\x0a err: " ++ e))) ∧
    (env.childLines = [] → (handle_job_model env).1 = Except.ok (Value.obj [])) := by
  refine ⟨?_, ?_, ?_⟩
  · intro v hv
    simp [handle_job_model, h1, h2, h3, hv]
  · intro e he
    simp [handle_job_model, h1, h2, h3, he]
  · intro hnil
    have hparse : jsonParse (lastLineAfter "\x7b\x7d" env.childLines) =
        Except.ok (Value.obj []) := by
      rw [hnil]; rfl
    simp [handle_job_model, h1, h2, h3, hparse]

/-- Witness for the amended C5 at a concrete input. -/
theorem handle_job_model_success_parse_witness :
    (handle_job_model
      { handlerOk := true, handlerErr := Error.InternalErr "",
        status := Except.ok true, childLines := ["done", "17"],
        removeOk := true, removeErr := Error.IoErr "", logs := "" }).1 =
      Except.ok (Value.num "17") :=
  (handle_job_model_success_parse
    { handlerOk := true, handlerErr := Error.InternalErr "",
      status := Except.ok true, childLines := ["done", "17"],
      removeOk := true, removeErr := Error.IoErr "", logs := "" }
    rfl rfl rfl).1 (Value.num "17") rfl

/-- C8 fails as stated: when the handler itself returns an error — for
example the missing-script-record `InternalErr` raised during preparation —
the question-mark operator propagates it before `remove_dir_all` is reached,
so the scratch directory is not deleted. -/
theorem handle_job_model_skips_removal :
    (handle_job_model
      { handlerOk := false, handlerErr := Error.InternalErr "expected content and lock",
        status := Except.error (Error.InternalErr "job not started"), childLines := [],
        removeOk := true, removeErr := Error.IoErr "", logs := "" }).2 = false := rfl

/-- C8 (amended): the scratch-directory removal is reached exactly when the
handler returned `Ok` — a preparation error skips it — and the removal is
not best-effort: when it fails after a successful handler, `handle_job`
returns the removal error, whatever the child status was. -/
theorem handle_job_model_removal_spec (env : HandleJobEnv) :
    ((handle_job_model env).2 = env.handlerOk) ∧
    (env.handlerOk = true → env.removeOk = false →
      (handle_job_model env).1 = Except.error env.removeErr) := by
  constructor
  · rcases hh : env.handlerOk with _ | _
    · simp [handle_job_model, hh]
    · rcases hr : env.removeOk with _ | _
      · simp [handle_job_model, hh, hr]
      · rcases hs : env.status with e | b
        · simp [handle_job_model, hh, hr, hs]
        · cases b
          · simp [handle_job_model, hh, hr, hs]
          · rcases hp : jsonParse (lastLineAfter "\x7b\x7d" env.childLines) with e | v <;>
              simp [handle_job_model, hh, hr, hs, hp]
  · intro h1 h2
    simp [handle_job_model, h1, h2]

/-- Witness for the amended C8 at a concrete input. -/
theorem handle_job_model_removal_spec_witness :
    (handle_job_model
      { handlerOk := true, handlerErr := Error.InternalErr "",
        status := Except.ok true, childLines := [],
        removeOk := false, removeErr := Error.IoErr "io error", logs := "" }).1 =
      Except.error (Error.IoErr "io error") :=
  (handle_job_model_removal_spec
    { handlerOk := true, handlerErr := Error.InternalErr "",
      status := Except.ok true, childLines := [],
      removeOk := false, removeErr := Error.IoErr "io error", logs := "" }).2 rfl rfl

/-- Auxiliary: decoding a hexadecimal digit emitted by the encoder. -/
theorem hexVal_hexDigit (n : Nat) (h : n < 16) : hexVal (hexDigit n) = some n := by
  interval_cases n <;> decide

/-! Rewrite equations for `parseStrBody` (its nested patterns make the
compiled recursor awkward to unfold on open terms). -/

theorem parseStrBody_quote (rest : List Char) :
    parseStrBody ('"' :: rest) = some ([], rest) := by
  rw [parseStrBody.eq_def]
  simp

theorem parseStrBody_plain (c : Char) (rest : List Char) (hq : ¬c = '"') (hb : ¬c = '\\') :
    parseStrBody (c :: rest) =
      match parseStrBody rest with
      | some (s, r) => some (c :: s, r)
      | none => none := by
  rw [parseStrBody.eq_def]
  simp [hq, hb]

theorem parseStrBody_esc2 (e : Char) (rest : List Char) (hu : ¬e = 'u') :
    parseStrBody ('\\' :: e :: rest) =
      match decodeEsc e with
      | some ch =>
        (match parseStrBody rest with
         | some (s, r) => some (ch :: s, r)
         | none => none)
      | none => none := by
  rw [parseStrBody.eq_def]
  simp [hu]

theorem parseStrBody_escu (h1 h2 h3 h4 : Char) (rest : List Char) :
    parseStrBody ('\\' :: 'u' :: h1 :: h2 :: h3 :: h4 :: rest) =
      match hexVal h1, hexVal h2, hexVal h3, hexVal h4 with
      | some a, some b, some c3, some d =>
        (match parseStrBody rest with
         | some (s, r) => some (Char.ofNat (((a * 16 + b) * 16 + c3) * 16 + d) :: s, r)
         | none => none)
      | _, _, _, _ => none := by
  rw [parseStrBody.eq_def]
  simp

/-- Auxiliary: the string parser decodes exactly what the encoder emitted. -/
theorem parseStrBody_encode (s rest : List Char) :
    parseStrBody (encodeChars s ++ '"' :: rest) = some (s, rest) := by
  induction s with
  | nil =>
    show parseStrBody ('"' :: rest) = some ([], rest)
    exact parseStrBody_quote rest
  | cons c cs ih =>
    show parseStrBody ((escChar c ++ encodeChars cs) ++ '"' :: rest) = some (c :: cs, rest)
    rw [List.append_assoc]
    by_cases h1 : c = '"'
    · subst h1
      rw [show escChar '"' = ['\\', '"'] from rfl, List.cons_append, List.singleton_append,
        parseStrBody_esc2 _ _ (by decide), ih]
      rfl
    by_cases h2 : c = '\\'
    · subst h2
      rw [show escChar '\\' = ['\\', '\\'] from rfl, List.cons_append, List.singleton_append,
        parseStrBody_esc2 _ _ (by decide), ih]
      rfl
    by_cases h3 : c = '\x08'
    · subst h3
      rw [show escChar '\x08' = ['\\', 'b'] from rfl, List.cons_append, List.singleton_append,
        parseStrBody_esc2 _ _ (by decide), ih]
      rfl
    by_cases h4 : c = '\x09'
    · subst h4
      rw [show escChar '\x09' = ['\\', 't'] from rfl, List.cons_append, List.singleton_append,
        parseStrBody_esc2 _ _ (by decide), ih]
      rfl
    by_cases h5 : c = '\x0a'
    · subst h5
      rw [show escChar '\x0a' = ['\\', 'n'] from rfl, List.cons_append, List.singleton_append,
        parseStrBody_esc2 _ _ (by decide), ih]
      rfl
    by_cases h6 : c = '\x0c'
    · subst h6
      rw [show escChar '\x0c' = ['\\', 'f'] from rfl, List.cons_append, List.singleton_append,
        parseStrBody_esc2 _ _ (by decide), ih]
      rfl
    by_cases h7 : c = '\x0d'
    · subst h7
      rw [show escChar '\x0d' = ['\\', 'r'] from rfl, List.cons_append, List.singleton_append,
        parseStrBody_esc2 _ _ (by decide), ih]
      rfl
    by_cases hlt : c.toNat < 0x20
    · have hesc : escChar c =
          ['\\', 'u', '0', '0', hexDigit (c.toNat / 16), hexDigit (c.toNat % 16)] := by
        simp [escChar, h1, h2, h3, h4, h5, h6, h7, hlt]
      have hd1 : hexVal (hexDigit (c.toNat / 16)) = some (c.toNat / 16) :=
        hexVal_hexDigit _ (by omega)
      have hd2 : hexVal (hexDigit (c.toNat % 16)) = some (c.toNat % 16) :=
        hexVal_hexDigit _ (by omega)
      have hofn : Char.ofNat (((0 * 16 + 0) * 16 + c.toNat / 16) * 16 + c.toNat % 16) = c := by
        have heq : ((0 * 16 + 0) * 16 + c.toNat / 16) * 16 + c.toNat % 16 = c.toNat := by
          omega
        rw [heq, Char.ofNat_toNat]
      rw [hesc]
      simp only [List.cons_append, List.nil_append]
      rw [parseStrBody_escu]
      rw [show hexVal '0' = some 0 from rfl, hd1, hd2, ih]
      exact congrArg (fun ch => some (ch :: cs, rest)) hofn
    · have hesc : escChar c = [c] := by
        simp [escChar, h1, h2, h3, h4, h5, h6, h7, hlt]
      rw [hesc, List.singleton_append, parseStrBody_plain c _ h1 h2, ih]

/-- Auxiliary: a run of plain characters inside a JSON string parses as
itself. -/
theorem parseStrBody_concrete (s : List Char) (rest : List Char)
    (h : ∀ c ∈ s, ¬c = '"' ∧ ¬c = '\\') :
    parseStrBody (s ++ '"' :: rest) = some (s, rest) := by
  induction s with
  | nil => exact parseStrBody_quote rest
  | cons c cs ih =>
    rw [List.cons_append, parseStrBody_plain c _ (h c (List.mem_cons_self c cs)).1
      (h c (List.mem_cons_self c cs)).2,
      ih (fun d hd => h d (List.mem_cons_of_mem c hd))]

/-- Auxiliary: the characters of the dependency-success `last_line`. -/
theorem depLastLine_data (content : String) :
    (depLastLine content).data =
      '\x7b' :: ' ' :: '"' :: 's' :: 'u' :: 'c' :: 'c' :: 'e' :: 's' :: 's' :: '"' :: ':' :: ' ' ::
      '"' :: 'S' :: 'u' :: 'c' :: 'c' :: 'e' :: 's' :: 's' :: 'f' :: 'u' :: 'l' :: ' ' ::
      'l' :: 'o' :: 'c' :: 'k' :: ' ' :: 'f' :: 'i' :: 'l' :: 'e' :: ' ' ::
      'g' :: 'e' :: 'n' :: 'e' :: 'r' :: 'a' :: 't' :: 'i' :: 'o' :: 'n' :: '"' :: ',' :: ' ' ::
      '"' :: 'l' :: 'o' :: 'c' :: 'k' :: '"' :: ':' :: ' ' :: '"' ::
      (encodeChars content.data ++ '"' :: ' ' :: '\x7d' :: []) := by
  have h1 : (depLastLine content).data =
      ("\x7b \"success\": \"Successful lock file generation\", \"lock\": " : String).data ++
      ('"' :: encodeChars content.data ++ ['"']) ++ [' ', '\x7d'] := rfl
  rw [h1]
  have h2 : ("\x7b \"success\": \"Successful lock file generation\", \"lock\": " : String).data =
      ['\x7b', ' ', '"', 's', 'u', 'c', 'c', 'e', 's', 's', '"', ':', ' ', '"', 'S', 'u', 'c',
       'c', 'e', 's', 's', 'f', 'u', 'l', ' ', 'l', 'o', 'c', 'k', ' ', 'f', 'i', 'l', 'e',
       ' ', 'g', 'e', 'n', 'e', 'r', 'a', 't', 'i', 'o', 'n', '"', ',', ' ', '"', 'l', 'o',
       'c', 'k', '"', ':', ' '] := rfl
  rw [h2]
  simp [List.append_assoc]

/-- Auxiliary: the dependency-success `last_line` parses as the object the
spec describes, whatever the lock content. -/
theorem depLastLine_parseValue (k : Nat) (content : String) :
    parseValue (k + 3) ((depLastLine content).data) =
      Except.ok (Value.obj
        [("success", Value.str "Successful lock file generation"),
         ("lock", Value.str content)], []) := by
  rw [depLastLine_data]
  simp [parseValue, skipWs, isJsonWs, parseStrBody_quote, parseStrBody_plain,
    parseStrBody_encode, decodeEsc]

/-- Auxiliary: `depLastLine_parseValue` through `jsonParse`. -/
theorem depLastLine_parse (content : String) :
    jsonParse (depLastLine content) =
      Except.ok (Value.obj
        [("success", Value.str "Successful lock file generation"),
         ("lock", Value.str content)]) := by
  have hge : 2 ≤ (depLastLine content).data.length := by
    rw [depLastLine_data]
    simp
  obtain ⟨k, hk⟩ : ∃ k, (depLastLine content).data.length + 1 = k + 3 :=
    ⟨(depLastLine content).data.length - 2, by omega⟩
  unfold jsonParse
  rw [hk, depLastLine_parseValue]
  rfl

/-- C9: for a Dependencies job whose pinning child exits successfully, the
resolver strips every `requirements.txt` line whose first non-whitespace
character is `#`, joins the rest with a newline, stores that text in the
`lock` column, and sets `last_line` to the JSON object mapping `success` to
the success message and `lock` to that content; on failure it stores the
accumulated logs into `lock_error_logs` instead. -/
theorem handle_dependency_post_spec (env : DepEnv) :
    (env.childOk = true → env.exitSuccess = true →
      (handle_dependency_post env).2 =
        [ScriptUpdate.setLock (stripComments env.fileContent)] ∧
      jsonParse (handle_dependency_post env).1 =
        Except.ok (Value.obj
          [("success", Value.str "Successful lock file generation"),
           ("lock", Value.str (stripComments env.fileContent))])) ∧
    (env.childOk = false ∨ env.exitSuccess = false →
      (handle_dependency_post env).2 = [ScriptUpdate.setLockErrorLogs env.logs]) := by
  constructor
  · intro h1 h2
    constructor
    · simp [handle_dependency_post, h1, h2]
    · simp [handle_dependency_post, h1, h2, depLastLine_parse]
  · intro h
    rcases h with h | h <;> simp [handle_dependency_post, h]

/-- Witness for C9 at a concrete input: a requirements file with one comment
line and one pinned package. -/
theorem handle_dependency_post_spec_witness :
    (handle_dependency_post
      ⟨true, true, "# header\x0apkg==1.0", "LOGS", "\x7b\x7d"⟩).2 =
        [ScriptUpdate.setLock (stripComments "# header\x0apkg==1.0")] ∧
    jsonParse (handle_dependency_post
      ⟨true, true, "# header\x0apkg==1.0", "LOGS", "\x7b\x7d"⟩).1 =
      Except.ok (Value.obj
        [("success", Value.str "Successful lock file generation"),
         ("lock", Value.str (stripComments "# header\x0apkg==1.0"))]) :=
  (handle_dependency_post_spec
    ⟨true, true, "# header\x0apkg==1.0", "LOGS", "\x7b\x7d"⟩).1 rfl rfl

end Windmill
